import Mathlib

/-
Verification of the pvl label encoder (src/pvl/encoder.py) and the reporting
helper pvl_flavor (src/pvl/pvl_validate.py), as a shallow embedding in Lean.

Conventions of the embedding:
* Python values reaching the encoder are the closed variant type PyValue.
  The constructor `other` stands for any value of a kind the encoder does not
  recognize, and carries the text Python's repr would produce for it.
* Byte strings written to the output stream are modelled as String (all the
  encoder's fixed tokens are ASCII, and str.encode('utf-8') is the identity on
  the character sequence).
* A procedure that writes to the stream is modelled as returning the bytes it
  appends, paired with the exception it raises, if any: String × Option PyExc.
  A pure helper that can raise returns Except PyExc String.
* The quoting collaborator (pvl._strings.needs_quotes / quote_string) is out of
  scope per the spec and is passed in as an opaque predicate nq and escaper qs.
-/

/-- A Python value as dispatched on by the encoder's isinstance checks. -/
inductive PyValue where
  | str (s : String)
  | int (n : Int)
  | bool (b : Bool)
  | pyNone
  | list (vs : List PyValue)
  | set (vs : List PyValue)
  | units (v : PyValue) (u : String)
  | group (es : List (String × PyValue))
  | dict (es : List (String × PyValue))
  | other (r : String)

/-- An ordered mapping (PVLModule / plain dict contents): key-value pairs in
insertion order, keys not necessarily unique. -/
abbrev PyModule := List (String × PyValue)

/-- The Python exception classes that appear in the sources: TypeError raised by
PVLEncoder.default, ValueError raised by max() on an empty sequence, and the
LexerError / ParseError of the out-of-scope loading layer. -/
inductive PyExc where
  | typeError (msg : String)
  | valueError (msg : String)
  | lexerError (msg : String)
  | parseError (msg : String)
deriving DecidableEq

/-- isinstance(value, six.string_types). -/
def is_string : PyValue → Bool
  | .str _ => true
  | _ => false

/-- isinstance(value, (int, float)).  In Python, bool is a subclass of int, so
this check is also true for booleans. -/
def is_int_float : PyValue → Bool
  | .int _ => true
  | .bool _ => true
  | _ => false

/-- value is None. -/
def is_py_none : PyValue → Bool
  | .pyNone => true
  | _ => false

/-- isinstance(value, bool). -/
def is_bool : PyValue → Bool
  | .bool _ => true
  | _ => false

/-- The payload of a .str value (only read under is_string). -/
def str_val : PyValue → String
  | .str s => s
  | _ => ""

/-- The payload of a .bool value (only read under is_bool). -/
def bool_val : PyValue → Bool
  | .bool b => b
  | _ => false

/-- Python repr(value), as consumed by PVLEncoder.default.  The `other`
constructor carries the repr text of the unrecognized host object it stands
for; the remaining constructors are values the claims never route through
default at the entry level, and get a schematic rendering. -/
def py_repr : PyValue → String
  | .other r => r
  | _ => "<value>"

/-- Python str(value) for a value that passed the isinstance(value, (int,
float)) check: decimal text for ints, and "True"/"False" for the booleans that
fall through to encode_number because bool subclasses int. -/
def py_str_number : PyValue → String
  | .int n => toString n
  | .bool b => if b then "True" else "False"
  | _ => ""

/-- How a dialect writes group/object close lines: the PVLEncoder base class
repeats the name after the end token (encoder.py:53-59, 74-80), while
IsisCubeLabelEncoder overrides encode_group_end / encode_object_end to write
the bare end token (encoder.py:164-172). -/
inductive EndStyle where
  | repeatName
  | bare
deriving DecidableEq

/-- The class-level token attributes of PVLEncoder (encoder.py:8-18) together
with the data that resolves the subclass method overrides: end_style selects
the close-line writer, and pds_col models PDSLabelEncoder's assignment_col as
read by its encode_raw_assignment override (encoder.py:199-204); Option.none
selects the base writer.  The source attribute `indentation` is named
indent_unit here. -/
structure EncCfg where
  group : String
  end_group : String
  object : String
  end_object : String
  end_statement : String
  null : String
  true : String
  false : String
  assignment : String
  indent_unit : String
  newline : String
  end_style : EndStyle
  pds_col : Option Nat
deriving DecidableEq

/-- The PVLEncoder class attributes (encoder.py:7-18). -/
def PVLEncoder.cfg : EncCfg :=
  { group := "BEGIN_GROUP", end_group := "END_GROUP",
    object := "BEGIN_OBJECT", end_object := "END_OBJECT",
    end_statement := "END", null := "NULL", true := "TRUE", false := "FALSE",
    assignment := " = ", indent_unit := "  ", newline := "\n",
    end_style := .repeatName, pds_col := Option.none }

/-- IsisCubeLabelEncoder overrides (encoder.py:157-162). -/
def IsisCubeLabelEncoder.cfg : EncCfg :=
  { PVLEncoder.cfg with
    group := "Group", end_group := "End_Group",
    object := "Object", end_object := "End_Object",
    end_statement := "End", end_style := .bare }

/-- PDSLabelEncoder overrides (encoder.py:175-180), with the assignment_col the
instance carries while encoding. -/
def PDSLabelEncoder.cfg (assignment_col : Nat) : EncCfg :=
  { PVLEncoder.cfg with
    group := "GROUP", end_group := "END",
    object := "OBJECT", end_object := "END",
    end_statement := "END", pds_col := some assignment_col }

/-- PVLEncoder.encode_units (encoder.py:125). -/
def encode_units (u : String) : String :=
  "<" ++ u ++ ">"

/-- PVLEncoder.encode_null (encoder.py:128). -/
def encode_null (cfg : EncCfg) : String :=
  cfg.null

/-- PVLEncoder.encode_number (encoder.py:131): str(value).encode('utf-8'). -/
def encode_number (v : PyValue) : String :=
  py_str_number v

/-- PVLEncoder.encode_string (encoder.py:134), with the out-of-scope quoting
collaborator passed in as nq (needs_quotes) and qs (quote_string). -/
def encode_string (nq : String → Bool) (qs : String → String) (s : String) : String :=
  if nq s then qs s else s

/-- PVLEncoder.encode_bool (encoder.py:139): the TRUE/FALSE literals.  Note
this method is unreachable from encode_simple_value (see there). -/
def encode_bool (cfg : EncCfg) (b : Bool) : String :=
  if b then cfg.true else cfg.false

/-- PVLEncoder.default (encoder.py:153): raise TypeError(repr(value) + " is
not serializable"). -/
def PVLEncoder.default (v : PyValue) : Except PyExc String :=
  .error (.typeError (py_repr v ++ " is not serializable"))

mutual

/-- PVLEncoder.encode_value (encoder.py:97): unwrap a Units value, encoding its
units text and its inner scalar, else delegate to encode_simple_value. -/
def encode_value (nq : String → Bool) (qs : String → String) (cfg : EncCfg) :
    PyValue → Except PyExc String
  | .units v u => do
      let us := encode_units u
      let vv ← encode_simple_value nq qs cfg v
      .ok (vv ++ " " ++ us)
  | v => encode_simple_value nq qs cfg v

/-- PVLEncoder.encode_simple_value (encoder.py:104): the isinstance dispatch
chain, in source order: string, (int, float), None, bool, list, set, default.
Because isinstance(value, (int, float)) is tested before isinstance(value,
bool) and bool is a subclass of int in Python, booleans are routed to
encode_number and the encode_bool branch is dead code. -/
def encode_simple_value (nq : String → Bool) (qs : String → String) (cfg : EncCfg)
    (v : PyValue) : Except PyExc String :=
  if is_string v then .ok (encode_string nq qs (str_val v))
  else if is_int_float v then .ok (encode_number v)
  else if is_py_none v then .ok (encode_null cfg)
  else if is_bool v then .ok (encode_bool cfg (bool_val v))
  else
    match v with
    | .list vs => encode_list nq qs cfg vs
    | .set vs => encode_set nq qs cfg vs
    | w => PVLEncoder.default w

/-- PVLEncoder.encode_sequence (encoder.py:144): b', '.join of the encoded
elements; the first element whose encoding raises aborts the join. -/
def encode_sequence (nq : String → Bool) (qs : String → String) (cfg : EncCfg) :
    List PyValue → Except PyExc String
  | [] => .ok ""
  | [v] => encode_value nq qs cfg v
  | v :: rest => do
      let s ← encode_value nq qs cfg v
      let r ← encode_sequence nq qs cfg rest
      .ok (s ++ ", " ++ r)

/-- PVLEncoder.encode_list (encoder.py:147). -/
def encode_list (nq : String → Bool) (qs : String → String) (cfg : EncCfg)
    (vs : List PyValue) : Except PyExc String := do
  .ok ("(" ++ (← encode_sequence nq qs cfg vs) ++ ")")

/-- PVLEncoder.encode_set (encoder.py:150): brace-delimited join over the set's
iteration order, which the PyValue.set constructor carries as a list. -/
def encode_set (nq : String → Bool) (qs : String → String) (cfg : EncCfg)
    (vs : List PyValue) : Except PyExc String := do
  .ok ("\x7b" ++ (← encode_sequence nq qs cfg vs) ++ "\x7d")

end

/-- PVLEncoder.indent (encoder.py:20): the level * self.indentation prefix the
stream receives (indentation is the indent_unit field here). -/
def indent (cfg : EncCfg) (level : Nat) : String :=
  String.join (List.replicate level cfg.indent_unit)

/-- Python bytes.ljust(width): pad on the right with spaces up to width; a
longer input is returned unchanged. -/
def ljust (s : String) (width : Nat) : String :=
  s ++ String.mk (List.replicate (width - s.length) ' ')

/-- PVLEncoder.encode_raw_assignment (encoder.py:90) together with the
PDSLabelEncoder override (encoder.py:199): when the configuration carries a
pds assignment_col, the indented key is left-justified to that column before
the assignment token. -/
def encode_raw_assignment (cfg : EncCfg) (key value : String) (level : Nat) : String :=
  match cfg.pds_col with
  | some col =>
      ljust (indent cfg level ++ key) col ++ cfg.assignment ++ value ++ cfg.newline
  | Option.none =>
      indent cfg level ++ key ++ cfg.assignment ++ value ++ cfg.newline

/-- PVLEncoder.encode_group_begin (encoder.py:45): the structural group token
in the key slot and the group's name in the value slot. -/
def encode_group_begin (cfg : EncCfg) (key : String) (level : Nat) : String :=
  encode_raw_assignment cfg cfg.group key level

/-- PVLEncoder.encode_group_end (encoder.py:53) or the IsisCubeLabelEncoder
override (encoder.py:164), selected by end_style. -/
def encode_group_end (cfg : EncCfg) (key : String) (level : Nat) : String :=
  match cfg.end_style with
  | .repeatName => encode_raw_assignment cfg cfg.end_group key level
  | .bare => indent cfg level ++ cfg.end_group ++ cfg.newline

/-- PVLEncoder.encode_object_begin (encoder.py:66). -/
def encode_object_begin (cfg : EncCfg) (key : String) (level : Nat) : String :=
  encode_raw_assignment cfg cfg.object key level

/-- PVLEncoder.encode_object_end (encoder.py:74) or the IsisCubeLabelEncoder
override (encoder.py:169). -/
def encode_object_end (cfg : EncCfg) (key : String) (level : Nat) : String :=
  match cfg.end_style with
  | .repeatName => encode_raw_assignment cfg cfg.end_object key level
  | .bare => indent cfg level ++ cfg.end_object ++ cfg.newline

/-- PVLEncoder.encode_assignment (encoder.py:82): encode_value is evaluated
before encode_raw_assignment is entered, so an entry whose value raises writes
nothing at all for that entry. -/
def encode_assignment (nq : String → Bool) (qs : String → String) (cfg : EncCfg)
    (key : String) (v : PyValue) (level : Nat) : String × Option PyExc :=
  match encode_value nq qs cfg v with
  | .error e => ("", some e)
  | .ok sv => (encode_raw_assignment cfg key sv level, Option.none)

mutual

/-- PVLEncoder.encode_block (encoder.py:27): encode each (key, value) item in
order; a raised exception aborts the loop, keeping the bytes already written. -/
def encode_block (nq : String → Bool) (qs : String → String) (cfg : EncCfg) :
    PyModule → Nat → String × Option PyExc
  | [], _ => ("", Option.none)
  | (k, v) :: rest, level =>
      match encode_statement nq qs cfg k v level with
      | (s, some e) => (s, some e)
      | (s, Option.none) =>
          let r := encode_block nq qs cfg rest level
          (s ++ r.1, r.2)

/-- PVLEncoder.encode_statement (encoder.py:31): isinstance(value, PVLGroup)
selects the group encoder, isinstance(value, dict) the object encoder, and
anything else is an assignment. -/
def encode_statement (nq : String → Bool) (qs : String → String) (cfg : EncCfg)
    (key : String) (v : PyValue) (level : Nat) : String × Option PyExc :=
  match v with
  | .group es => encode_group nq qs cfg key es level
  | .dict es => encode_object nq qs cfg key es level
  | _ => encode_assignment nq qs cfg key v level

/-- PVLEncoder.encode_group (encoder.py:40): begin line, the block one level
deeper, then the close line — which is reached only if no entry raised. -/
def encode_group (nq : String → Bool) (qs : String → String) (cfg : EncCfg)
    (key : String) (es : PyModule) (level : Nat) : String × Option PyExc :=
  let b := encode_group_begin cfg key level
  match encode_block nq qs cfg es (level + 1) with
  | (s, some e) => (b ++ s, some e)
  | (s, Option.none) => (b ++ s ++ encode_group_end cfg key level, Option.none)

/-- PVLEncoder.encode_object (encoder.py:61). -/
def encode_object (nq : String → Bool) (qs : String → String) (cfg : EncCfg)
    (key : String) (es : PyModule) (level : Nat) : String × Option PyExc :=
  let b := encode_object_begin cfg key level
  match encode_block nq qs cfg es (level + 1) with
  | (s, some e) => (b ++ s, some e)
  | (s, Option.none) => (b ++ s ++ encode_object_end cfg key level, Option.none)

end

/-- PVLEncoder.encode (encoder.py:23): the block at level 0, then the terminal
token with no trailing newline; the terminal token is not reached if the block
raised. -/
def PVLEncoder.encode (nq : String → Bool) (qs : String → String) (cfg : EncCfg)
    (module : PyModule) : String × Option PyExc :=
  match encode_block nq qs cfg module 0 with
  | (s, some e) => (s, some e)
  | (s, Option.none) => (s ++ cfg.end_statement, Option.none)

mutual

/-- PDSLabelEncoder._detect_assignment_col (encoder.py:182):
max(self._key_length(k, v, indent) for k, v in block_items).  Python's max
raises ValueError on an empty sequence, so an empty block raises. -/
def detect_assignment_col : PyModule → Nat → Except PyExc Nat
  | [], _ => .error (.valueError "max() arg is an empty sequence")
  | (k, v) :: rest, ind =>
      match key_length k v ind with
      | .error e => .error e
      | .ok first => detect_max_fold rest ind first

/-- The running maximum of Python's max() over the remaining items of the
generator in _detect_assignment_col. -/
def detect_max_fold : PyModule → Nat → Nat → Except PyExc Nat
  | [], _, acc => .ok acc
  | (k, v) :: rest, ind, acc =>
      match key_length k v ind with
      | .error e => .error e
      | .ok l => detect_max_fold rest ind (max acc l)

/-- PDSLabelEncoder._key_length (encoder.py:186): indent + len(key), and for a
nested block the max with its detected column at indent + len(indentation) = 
indent + 2.  Modelled from the spec: isinstance(value, dict) is true for both
plain Mappings and Groups, the container types being out-of-scope collaborators
(spec section 3: a Group is a Mapping tagged with kind = Group), so both
branches below mirror the single dict branch of the source. -/
def key_length (key : String) (v : PyValue) (ind : Nat) : Except PyExc Nat :=
  match v with
  | .group es =>
      match detect_assignment_col es (ind + 2) with
      | .error e => .error e
      | .ok c => .ok (max (ind + key.length) c)
  | .dict es =>
      match detect_assignment_col es (ind + 2) with
      | .error e => .error e
      | .ok c => .ok (max (ind + key.length) c)
  | _ => .ok (ind + key.length)

end

/-- The mutable attribute state of a PDSLabelEncoder instance: assignment_col
does not exist on a fresh instance (Option.none) and is set by every encode
call (encoder.py:196). -/
structure PDSLabelEncoderState where
  assignment_col : Option Nat
deriving DecidableEq

/-- PDSLabelEncoder.encode (encoder.py:195): self.assignment_col =
self._detect_assignment_col(module), then super().encode(module, stream).  If
the pre-pass raises, the instance attribute keeps its previous value and
nothing is written; otherwise the traversal runs with the freshly stored
column.  Result: (instance state after the call, (bytes written, exception)). -/
def PDSLabelEncoder.encode (nq : String → Bool) (qs : String → String)
    (st : PDSLabelEncoderState) (module : PyModule) :
    PDSLabelEncoderState × (String × Option PyExc) :=
  match detect_assignment_col module 0 with
  | .error e => (st, ("", some e))
  | .ok col => (⟨some col⟩, PVLEncoder.encode nq qs (PDSLabelEncoder.cfg col) module)

mutual

/-- From the spec's words (section 4.4): the depth-first list of column
candidates — "for each key at nesting depth d, candidate length = (d ×
indent-unit-width) + length(key); recurse into nested Mappings/Groups with
d+1".  The indent unit is two characters wide. -/
def spec_candidates : PyModule → Nat → List Nat
  | [], _ => []
  | (k, v) :: rest, d => spec_key_candidates k v d ++ spec_candidates rest d

/-- The candidates contributed by one key and its value. -/
def spec_key_candidates (k : String) (v : PyValue) (d : Nat) : List Nat :=
  (d * 2 + k.length) ::
    (match v with
     | .group es => spec_candidates es (d + 1)
     | .dict es => spec_candidates es (d + 1)
     | _ => [])

end

mutual

/-- No UnorderedSet value occurs anywhere in the value. -/
def set_free : PyValue → Bool
  | .set _ => false
  | .list vs => set_free_list vs
  | .units v _ => set_free v
  | .group es => set_free_entries es
  | .dict es => set_free_entries es
  | _ => true

/-- No UnorderedSet value occurs in any element of the list. -/
def set_free_list : List PyValue → Bool
  | [] => true
  | v :: vs => set_free v && set_free_list vs

/-- No UnorderedSet value occurs in any entry of the mapping. -/
def set_free_entries : PyModule → Bool
  | [] => true
  | (_, v) :: rest => set_free v && set_free_entries rest

end

mutual

/-- Two trees denote the same Python value up to the iteration order of
UnorderedSet elements — the one contractually nondeterministic aspect of the
data model.  Everywhere else the trees must agree structurally. -/
def obs_eq : PyValue → PyValue → Prop
  | .set vs, .set ws => List.Perm vs ws
  | .list vs, .list ws => obs_eq_list vs ws
  | .units v u, .units w u' => obs_eq v w ∧ u = u'
  | .group es, .group fs => obs_eq_entries es fs
  | .dict es, .dict fs => obs_eq_entries es fs
  | v, w => v = w

/-- Pointwise obs_eq on ordered sequences. -/
def obs_eq_list : List PyValue → List PyValue → Prop
  | [], [] => True
  | v :: vs, w :: ws => obs_eq v w ∧ obs_eq_list vs ws
  | _, _ => False

/-- Pointwise obs_eq on ordered mappings: equal keys in equal order. -/
def obs_eq_entries : PyModule → PyModule → Prop
  | [], [] => True
  | (k, v) :: es, (k', w) :: fs => k = k' ∧ obs_eq v w ∧ obs_eq_entries es fs
  | _, _ => False

end

/-- The exception classes caught around pvl.loads in pvl_flavor
(pvl_validate.py:109): LexerError and ParseError. -/
def caught_at_load : PyExc → Bool
  | .lexerError _ => true
  | .parseError _ => true
  | _ => false

/-- The exception classes caught around pvl.dumps in pvl_flavor
(pvl_validate.py:106): LexerError, ParseError and ValueError — but not the
TypeError that PVLEncoder.default raises. -/
def caught_at_encode : PyExc → Bool
  | .lexerError _ => true
  | .parseError _ => true
  | .valueError _ => true
  | _ => false

/-- pvl.dumps with one of this file's encoder configurations: the bytes on
success, the exception the encoder raised otherwise. -/
def dumps (nq : String → Bool) (qs : String → String) (cfg : EncCfg)
    (module : PyModule) : Except PyExc String :=
  match PVLEncoder.encode nq qs cfg module with
  | (_, some e) => .error e
  | (s, Option.none) => .ok s

/-- pvl_flavor (pvl_validate.py:86).  Modelled from the spec: pvl.loads and the
parser/grammar/decoder stack are out-of-scope collaborators, so loading is
abstracted as its outcome (a module, or the exception it raised) and encoding
as a function from the loaded module to its outcome.  The result is .ok
(loads, encodes) when pvl_flavor returns its two-tuple, and .error e when an
exception escapes the function (aborting the caller's loop over files and
dialects).  Loading failure leaves encodes at its initial None. -/
def pvl_flavor (loadRes : Except PyExc PyModule)
    (dump : PyModule → Except PyExc String) :
    Except PyExc (Option Bool × Option Bool) :=
  match loadRes with
  | .error e =>
      if caught_at_load e then .ok (some false, Option.none) else .error e
  | .ok m =>
      match dump m with
      | .ok _ => .ok (some true, some true)
      | .error e =>
          if caught_at_encode e then .ok (some true, some false) else .error e

/-- Claim C1 (evidence of the code bug): the boolean case is NOT decided before
the numeric case.  isinstance(value, (int, float)) is tested first and catches
booleans because bool subclasses int, so encode_value / encode_simple_value
render True and False through encode_number as "True" and "False"; the
encode_bool method that would produce the TRUE/FALSE literals is dead code. -/
theorem claim_c1_bool_falls_through_to_number (nq : String → Bool) (qs : String → String) :
    encode_value nq qs PVLEncoder.cfg (.bool true) = .ok "True" ∧
    encode_value nq qs PVLEncoder.cfg (.bool false) = .ok "False" ∧
    encode_simple_value nq qs PVLEncoder.cfg (.bool true) =
      .ok (encode_number (.bool true)) ∧
    is_int_float (.bool true) = true ∧
    encode_bool PVLEncoder.cfg true = "TRUE" ∧
    encode_bool PVLEncoder.cfg false = "FALSE" := by
  refine ⟨?_, ?_, ?_, ?_, ?_, ?_⟩ <;>
    simp [encode_value, encode_simple_value, is_string, is_int_float,
          encode_number, py_str_number, encode_bool, PVLEncoder.cfg]

/-- Claim C3: under the Default dialect, the two-entry input with a nested
Group encodes to exactly the claimed bytes — nested entry indented one unit,
group close line repeating the group name, terminal END with no trailing line
break. -/
theorem claim_c3_default_group_output (nq : String → Bool) (qs : String → String) :
    PVLEncoder.encode nq qs PVLEncoder.cfg
      [("A", .int 1), ("X", .group [("B", .int 2)])] =
      ("A = 1\nBEGIN_GROUP = X\n  B = 2\nEND_GROUP = X\nEND", Option.none) := by
  simp [PVLEncoder.encode, encode_block, encode_statement, encode_assignment,
        encode_group, encode_group_begin, encode_group_end, encode_raw_assignment,
        encode_value, encode_simple_value, is_string, is_int_float, is_py_none,
        is_bool, encode_number, py_str_number, indent, PVLEncoder.cfg]
  rfl

/-- Claim C7: under the Cube dialect, the group-close line for every group
entry is exactly the indentation, the End_Group token and a newline — no
assignment token and no repeated group name. -/
theorem claim_c7_cube_group_end (key : String) (level : Nat) :
    encode_group_end IsisCubeLabelEncoder.cfg key level =
      indent IsisCubeLabelEncoder.cfg level ++ "End_Group" ++ "\n" := by
  simp [encode_group_end, IsisCubeLabelEncoder.cfg, PVLEncoder.cfg]

/-- Claim C9: encoding the empty mapping under PDS3 raises ValueError from the
column pre-pass (max over an empty sequence) before any byte is written and
leaves the instance untouched, while the Default and Cube dialects succeed and
write exactly their terminal token. -/
theorem claim_c9_empty_mapping (nq : String → Bool) (qs : String → String) :
    PDSLabelEncoder.encode nq qs ⟨Option.none⟩ [] =
      (⟨Option.none⟩, ("", some (.valueError "max() arg is an empty sequence"))) ∧
    PVLEncoder.encode nq qs PVLEncoder.cfg [] = ("END", Option.none) ∧
    PVLEncoder.encode nq qs IsisCubeLabelEncoder.cfg [] = ("End", Option.none) := by
  refine ⟨?_, ?_, ?_⟩ <;>
    simp [PDSLabelEncoder.encode, detect_assignment_col, PVLEncoder.encode,
          encode_block, PVLEncoder.cfg, IsisCubeLabelEncoder.cfg]

/-- The outcome half of a PDS encode call does not depend on the incoming
instance state: assignment_col is overwritten before anything reads it. -/
theorem pds_encode_out_state_irrel (nq : String → Bool) (qs : String → String)
    (st₁ st₂ : PDSLabelEncoderState) (m : PyModule) :
    (PDSLabelEncoder.encode nq qs st₁ m).2 = (PDSLabelEncoder.encode nq qs st₂ m).2 := by
  cases hd : detect_assignment_col m 0 <;>
    simp [PDSLabelEncoder.encode, hd]

/-- Claim C6 counterexample: PDSLabelEncoder.encode DOES store the per-call
computed alignment column on the encoder instance — encoding the one-entry
mapping A = 1 on a fresh instance leaves assignment_col = 1 behind on it. -/
theorem claim_c6_counterexample :
    (PDSLabelEncoder.encode (fun _ => false) id ⟨Option.none⟩ [("A", .int 1)]).1 =
      ⟨some 1⟩ ∧
    (⟨some 1⟩ : PDSLabelEncoderState) ≠ ⟨Option.none⟩ := by
  constructor
  · simp [PDSLabelEncoder.encode, detect_assignment_col, detect_max_fold, key_length]
    rfl
  · decide

/-- Claim C6 (amended): the dialect configuration is immutable and the
bytes-and-exception outcome of a PDS3 encode call never depends on the
alignment column a previous call stored on the instance — it is recomputed
before any output — but, contrary to the claim as written, the column IS
stored on the encoder instance (attribute assignment_col) rather than being
passed through the recursive calls. -/
theorem claim_c6_amended_state (nq : String → Bool) (qs : String → String)
    (st₁ st₂ : PDSLabelEncoderState) (m : PyModule) :
    (PDSLabelEncoder.encode nq qs st₁ m).2 = (PDSLabelEncoder.encode nq qs st₂ m).2 := by
  exact pds_encode_out_state_irrel nq qs st₁ st₂ m

/-- Claim C5 counterexample: an encoding failure raised by the encoder CAN
abort the whole run — PVLEncoder.default raises TypeError, which the except
clause around pvl.dumps (LexerError, ParseError, ValueError) does not catch,
so the exception escapes pvl_flavor instead of being recorded as a (True,
False) outcome pair. -/
theorem claim_c5_counterexample :
    pvl_flavor (.ok [("A", .other "<obj>")])
        (dumps (fun _ => false) id PVLEncoder.cfg) =
      .error (.typeError "<obj> is not serializable") := by
  simp [pvl_flavor, dumps, PVLEncoder.encode, encode_block, encode_statement,
        encode_assignment, encode_value, encode_simple_value, is_string,
        is_int_float, is_py_none, is_bool, PVLEncoder.default, py_repr,
        caught_at_encode]

/-- Claim C5 (amended): pvl_flavor records the (loaded, encoded) outcome pair
and returns — letting the caller continue with the next profile and file —
whenever the loading failure is a LexerError or ParseError, or the encoding
failure is a LexerError, ParseError or ValueError; a load failure leaves the
encoded outcome unset.  An encoding failure of an uncaught class (the
encoder's TypeError for an unsupported value) instead propagates out of
pvl_flavor and aborts the run. -/
theorem claim_c5_amended_reporting (dump : PyModule → Except PyExc String) :
    (∀ e, caught_at_load e = true →
      pvl_flavor (.error e) dump = .ok (some false, Option.none)) ∧
    (∀ m s, dump m = .ok s →
      pvl_flavor (.ok m) dump = .ok (some true, some true)) ∧
    (∀ m e, dump m = .error e → caught_at_encode e = true →
      pvl_flavor (.ok m) dump = .ok (some true, some false)) ∧
    (∀ m e, dump m = .error e → caught_at_encode e = false →
      pvl_flavor (.ok m) dump = .error e) := by
  refine ⟨fun e he => ?_, fun m s hm => ?_, fun m e hm he => ?_, fun m e hm he => ?_⟩
  · simp [pvl_flavor, he]
  · simp [pvl_flavor, hm]
  · simp [pvl_flavor, hm, he]
  · simp [pvl_flavor, hm, he]

/-- Witness for the amended claim C5, at concrete outcomes of each class. -/
theorem claim_c5_witness :
    pvl_flavor (.error (.lexerError "L")) (fun _ => .ok "") =
      .ok (some false, Option.none) ∧
    pvl_flavor (.ok []) (fun _ => .ok "") = .ok (some true, some true) ∧
    pvl_flavor (.ok []) (fun _ => .error (.valueError "V")) =
      .ok (some true, some false) ∧
    pvl_flavor (.ok []) (fun _ => .error (.typeError "T")) =
      .error (.typeError "T") := by
  refine ⟨(claim_c5_amended_reporting _).1 _ rfl,
          (claim_c5_amended_reporting _).2.1 _ "" rfl,
          (claim_c5_amended_reporting _).2.2.1 _ _ rfl rfl,
          (claim_c5_amended_reporting _).2.2.2 _ _ rfl rfl⟩

/-- Every raw assignment line starts with the line's indentation (the PDS
variant pads on the right, after the key, so the prefix is unchanged). -/
theorem encode_raw_assignment_indented (cfg : EncCfg) (key value : String) (level : Nat) :
    ∃ r, encode_raw_assignment cfg key value level = indent cfg level ++ r := by
  cases hc : cfg.pds_col with
  | none =>
      exact ⟨key ++ cfg.assignment ++ value ++ cfg.newline,
        by simp [encode_raw_assignment, hc, String.append_assoc]⟩
  | some col =>
      refine ⟨key ++ String.mk (List.replicate (col - (indent cfg level ++ key).length) ' ') ++
        cfg.assignment ++ value ++ cfg.newline, ?_⟩
      simp [encode_raw_assignment, ljust, hc, String.append_assoc]

/-- Every group close line starts with the line's indentation. -/
theorem encode_group_end_indented (cfg : EncCfg) (key : String) (level : Nat) :
    ∃ r, encode_group_end cfg key level = indent cfg level ++ r := by
  cases hs : cfg.end_style with
  | repeatName =>
      simpa [encode_group_end, hs] using
        encode_raw_assignment_indented cfg cfg.end_group key level
  | bare =>
      exact ⟨cfg.end_group ++ cfg.newline,
        by simp [encode_group_end, hs, String.append_assoc]⟩

/-- Every object close line starts with the line's indentation. -/
theorem encode_object_end_indented (cfg : EncCfg) (key : String) (level : Nat) :
    ∃ r, encode_object_end cfg key level = indent cfg level ++ r := by
  cases hs : cfg.end_style with
  | repeatName =>
      simpa [encode_object_end, hs] using
        encode_raw_assignment_indented cfg cfg.end_object key level
  | bare =>
      exact ⟨cfg.end_object ++ cfg.newline,
        by simp [encode_object_end, hs, String.append_assoc]⟩

/-- Claim C8: whenever the encoding of a Group or Object entry succeeds, its
bytes are exactly one begin line, then the nested block one level deeper, then
exactly one matching close line; begin and close line both carry the
indentation of the same level. -/
theorem claim_c8_begin_end_balanced (nq : String → Bool) (qs : String → String)
    (cfg : EncCfg) (key : String) (es : PyModule) (level : Nat) :
    ((encode_group nq qs cfg key es level).2 = Option.none →
      (encode_group nq qs cfg key es level).1 =
        encode_group_begin cfg key level ++
          (encode_block nq qs cfg es (level + 1)).1 ++
          encode_group_end cfg key level) ∧
    ((encode_object nq qs cfg key es level).2 = Option.none →
      (encode_object nq qs cfg key es level).1 =
        encode_object_begin cfg key level ++
          (encode_block nq qs cfg es (level + 1)).1 ++
          encode_object_end cfg key level) ∧
    (∃ r, encode_group_begin cfg key level = indent cfg level ++ r) ∧
    (∃ r, encode_group_end cfg key level = indent cfg level ++ r) ∧
    (∃ r, encode_object_begin cfg key level = indent cfg level ++ r) ∧
    (∃ r, encode_object_end cfg key level = indent cfg level ++ r) := by
  refine ⟨?_, ?_, encode_raw_assignment_indented cfg cfg.group key level,
          encode_group_end_indented cfg key level,
          encode_raw_assignment_indented cfg cfg.object key level,
          encode_object_end_indented cfg key level⟩
  · intro h
    rcases hb : encode_block nq qs cfg es (level + 1) with ⟨s, err⟩
    cases err with
    | some ex => simp [encode_group, hb] at h
    | none => simp [encode_group, encode_group_begin, hb]
  · intro h
    rcases hb : encode_block nq qs cfg es (level + 1) with ⟨s, err⟩
    cases err with
    | some ex => simp [encode_object, hb] at h
    | none => simp [encode_object, encode_object_begin, hb]

/-- Witness for claim C8 at a concrete group and object. -/
theorem claim_c8_witness :
    (encode_group (fun _ => false) id PVLEncoder.cfg "X" [("B", .int 2)] 0).1 =
      encode_group_begin PVLEncoder.cfg "X" 0 ++
        (encode_block (fun _ => false) id PVLEncoder.cfg [("B", .int 2)] 1).1 ++
        encode_group_end PVLEncoder.cfg "X" 0 ∧
    (encode_object (fun _ => false) id PVLEncoder.cfg "X" [("B", .int 2)] 0).1 =
      encode_object_begin PVLEncoder.cfg "X" 0 ++
        (encode_block (fun _ => false) id PVLEncoder.cfg [("B", .int 2)] 1).1 ++
        encode_object_end PVLEncoder.cfg "X" 0 := by
  constructor
  · exact (claim_c8_begin_end_balanced _ _ _ _ _ _).1 (by
      simp [encode_group, encode_block, encode_statement, encode_assignment,
            encode_value, encode_simple_value, is_string, is_int_float,
            encode_number, py_str_number, PVLEncoder.cfg])
  · exact (claim_c8_begin_end_balanced _ _ _ _ _ _).2.1 (by
      simp [encode_object, encode_block, encode_statement, encode_assignment,
            encode_value, encode_simple_value, is_string, is_int_float,
            encode_number, py_str_number, PVLEncoder.cfg])

/-- Appending further entries after a block whose encoding succeeded: the
combined block writes the first block's bytes and then behaves exactly as the
second block. -/
theorem encode_block_append_ok (nq : String → Bool) (qs : String → String)
    (cfg : EncCfg) (xs ys : PyModule) (level : Nat)
    (h : (encode_block nq qs cfg xs level).2 = Option.none) :
    encode_block nq qs cfg (xs ++ ys) level =
      ((encode_block nq qs cfg xs level).1 ++ (encode_block nq qs cfg ys level).1,
       (encode_block nq qs cfg ys level).2) := by
  induction xs with
  | nil => simp [encode_block]
  | cons e rest ih =>
      obtain ⟨k, v⟩ := e
      rcases hs : encode_statement nq qs cfg k v level with ⟨s, err⟩
      cases err with
      | some ex => simp [encode_block, hs] at h
      | none =>
          have h' : (encode_block nq qs cfg rest level).2 = Option.none := by
            simpa [encode_block, hs] using h
          simp [encode_block, hs, ih h', String.append_assoc]

/-- Claim C4: an entry whose value has no recognized variant makes encode raise
the unsupported-value failure (TypeError carrying the value's repr); zero
bytes are written for the failing entry itself, the bytes of all prior
siblings remain, and neither any later sibling nor the terminal token is
written. -/
theorem claim_c4_unsupported_value (nq : String → Bool) (qs : String → String)
    (cfg : EncCfg) (pre post : PyModule) (k r : String)
    (h : (encode_block nq qs cfg pre 0).2 = Option.none) :
    PVLEncoder.encode nq qs cfg (pre ++ (k, .other r) :: post) =
      ((encode_block nq qs cfg pre 0).1,
       some (.typeError (r ++ " is not serializable"))) := by
  have hstep : encode_block nq qs cfg ((k, PyValue.other r) :: post) 0 =
      ("", some (.typeError (r ++ " is not serializable"))) := by
    simp [encode_block, encode_statement, encode_assignment, encode_value,
          encode_simple_value, is_string, is_int_float, is_py_none, is_bool,
          PVLEncoder.default, py_repr]
  have hall := encode_block_append_ok nq qs cfg pre ((k, PyValue.other r) :: post) 0 h
  rw [hstep] at hall
  simp only [] at hall
  simp [PVLEncoder.encode, hall]

/-- Witness for claim C4: a supported sibling, then the unsupported entry, then
a sibling that is never reached. -/
theorem claim_c4_witness :
    PVLEncoder.encode (fun _ => false) id PVLEncoder.cfg
        [("A", .int 1), ("B", .other "bad"), ("C", .int 2)] =
      ((encode_block (fun _ => false) id PVLEncoder.cfg [("A", .int 1)] 0).1,
       some (.typeError "bad is not serializable")) := by
  exact claim_c4_unsupported_value (fun _ => false) id PVLEncoder.cfg
    [("A", .int 1)] [("C", .int 2)] "B" "bad" (by
      simp [encode_block, encode_statement, encode_assignment, encode_value,
            encode_simple_value, is_string, is_int_float, encode_number,
            py_str_number, PVLEncoder.cfg])

/-- Away from UnorderedSet values, observational equality collapses to
equality: set iteration order is the only nondeterminism in the data model. -/
theorem obs_eq_eq_of_set_free :
    (∀ v w, set_free v = true → obs_eq v w → v = w) ∧
    (∀ es fs, set_free_entries es = true → obs_eq_entries es fs → es = fs) ∧
    (∀ vs ws, set_free_list vs = true → obs_eq_list vs ws → vs = ws) := by
  apply obs_eq.mutual_induct
  case case1 =>
    intro vs ws h1 h2
    simp [set_free] at h1
  case case2 =>
    intro vs ws ih h1 h2
    simp [set_free] at h1
    simp [obs_eq] at h2
    rw [ih h1 h2]
  case case3 =>
    intro v u w u' ih h1 h2
    simp [set_free] at h1
    simp [obs_eq] at h2
    obtain ⟨hv, hu⟩ := h2
    rw [ih h1 hv, hu]
  case case4 =>
    intro es fs ih h1 h2
    simp [set_free] at h1
    simp [obs_eq] at h2
    rw [ih h1 h2]
  case case5 =>
    intro es fs ih h1 h2
    simp [set_free] at h1
    simp [obs_eq] at h2
    rw [ih h1 h2]
  case case6 =>
    intro v w hset hlist hunits hgroup hdict h1 h2
    cases v <;> cases w <;>
      first
      | exact (hset _ _ rfl rfl).elim
      | exact (hlist _ _ rfl rfl).elim
      | exact (hunits _ _ _ _ rfl rfl).elim
      | exact (hgroup _ _ rfl rfl).elim
      | exact (hdict _ _ rfl rfl).elim
      | simpa [obs_eq] using h2
  case case7 =>
    intro h1 h2
    rfl
  case case8 =>
    intro v vs w ws ihv ihl h1 h2
    simp [set_free_list, Bool.and_eq_true] at h1
    simp [obs_eq_list] at h2
    rw [ihv h1.1 h2.1, ihl h1.2 h2.2]
  case case9 =>
    intro t x hnil hcons h1 h2
    cases t with
    | nil =>
        cases x with
        | nil => exact (hnil rfl rfl).elim
        | cons b x' => simp [obs_eq_list] at h2
    | cons a t' =>
        cases x with
        | nil => simp [obs_eq_list] at h2
        | cons b x' => exact (hcons a t' b x' rfl rfl).elim
  case case10 =>
    intro h1 h2
    rfl
  case case11 =>
    intro k v es k' w fs ihv ihe h1 h2
    simp [set_free_entries, Bool.and_eq_true] at h1
    simp [obs_eq_entries] at h2
    obtain ⟨hk, hv, he⟩ := h2
    rw [hk, ihv h1.1 hv, ihe h1.2 he]
  case case12 =>
    intro t x hnil hcons h1 h2
    cases t with
    | nil =>
        cases x with
        | nil => exact (hnil rfl rfl).elim
        | cons b x' => simp [obs_eq_entries] at h2
    | cons a t' =>
        cases x with
        | nil => simp [obs_eq_entries] at h2
        | cons b x' =>
            obtain ⟨k, v⟩ := a
            obtain ⟨k', w⟩ := b
            exact (hcons k v t' k' w x' rfl rfl).elim

/-- Claim C10: two encode calls with the same dialect configuration on the same
tree write identical byte sequences.  "Same tree" is up to the iteration order
of UnorderedSet values — the contractually nondeterministic case — which a
tree containing no set cannot exercise; for PDS3 the calls may also run on
instances carrying different previously stored alignment columns. -/
theorem claim_c10_deterministic (nq : String → Bool) (qs : String → String)
    (cfg : EncCfg) (m₁ m₂ : PyModule) (st₁ st₂ : PDSLabelEncoderState)
    (h : obs_eq_entries m₁ m₂) (hf : set_free_entries m₁ = true) :
    PVLEncoder.encode nq qs cfg m₁ = PVLEncoder.encode nq qs cfg m₂ ∧
    (PDSLabelEncoder.encode nq qs st₁ m₁).2 = (PDSLabelEncoder.encode nq qs st₂ m₂).2 := by
  have hm : m₁ = m₂ := obs_eq_eq_of_set_free.2.1 m₁ m₂ hf h
  subst hm
  exact ⟨rfl, pds_encode_out_state_irrel nq qs st₁ st₂ m₁⟩

/-- Witness for claim C10 at a concrete set-free tree and two distinct PDS3
instance states. -/
theorem claim_c10_witness :
    PVLEncoder.encode (fun _ => false) id PVLEncoder.cfg [("A", .int 1)] =
      PVLEncoder.encode (fun _ => false) id PVLEncoder.cfg [("A", .int 1)] ∧
    (PDSLabelEncoder.encode (fun _ => false) id ⟨Option.none⟩ [("A", .int 1)]).2 =
      (PDSLabelEncoder.encode (fun _ => false) id ⟨some 99⟩ [("A", .int 1)]).2 := by
  exact claim_c10_deterministic (fun _ => false) id PVLEncoder.cfg
    [("A", .int 1)] [("A", .int 1)] ⟨Option.none⟩ ⟨some 99⟩
    (by simp [obs_eq_entries, obs_eq]) (by simp [set_free_entries, set_free])

/-- Joint correctness of the column pre-pass against the spec's candidate
list, by strong induction on the tree size: whenever _detect_assignment_col
(or its running max, or _key_length) returns a column, that column is a
candidate of the spec's depth-first list and bounds all of them. -/
theorem detect_spec_aux : ∀ n : Nat,
    (∀ (block : PyModule) (d c : Nat), sizeOf block ≤ n →
      detect_assignment_col block (2 * d) = .ok c →
      c ∈ spec_candidates block d ∧ ∀ x ∈ spec_candidates block d, x ≤ c) ∧
    (∀ (block : PyModule) (d acc c : Nat), sizeOf block ≤ n →
      detect_max_fold block (2 * d) acc = .ok c →
      (c = acc ∨ c ∈ spec_candidates block d) ∧ acc ≤ c ∧
        ∀ x ∈ spec_candidates block d, x ≤ c) ∧
    (∀ (k : String) (v : PyValue) (d c : Nat), sizeOf v ≤ n →
      key_length k v (2 * d) = .ok c →
      c ∈ spec_key_candidates k v d ∧ ∀ x ∈ spec_key_candidates k v d, x ≤ c) := by
  intro n
  induction n using Nat.strong_induction_on with
  | _ n ih =>
    have kpart : ∀ (k : String) (v : PyValue) (d c : Nat), sizeOf v ≤ n →
        key_length k v (2 * d) = .ok c →
        c ∈ spec_key_candidates k v d ∧ ∀ x ∈ spec_key_candidates k v d, x ≤ c := by
      intro k v d c hsz hkl
      rcases v with s | nn | b | _ | vs | vs | ⟨w, u⟩ | es | es | r
      case group =>
        rcases hdet : detect_assignment_col es (2 * d + 2) with e | c'
        · simp [key_length, hdet] at hkl
        · simp [key_length, hdet] at hkl
          have h2 : 2 * d + 2 = 2 * (d + 1) := by ring
          rw [h2] at hdet
          have hlt : sizeOf es < n := by
            simp only [PyValue.group.sizeOf_spec] at hsz
            omega
          obtain ⟨hmem, hbound⟩ := (ih (sizeOf es) hlt).1 es (d + 1) c' (le_refl _) hdet
          subst hkl
          have ha := Nat.le_max_left (2 * d + k.length) c'
          have hb := Nat.le_max_right (2 * d + k.length) c'
          constructor
          · simp only [spec_key_candidates, List.mem_cons]
            rcases max_choice (2 * d + k.length) c' with hm | hm
            · left
              omega
            · right
              rw [hm]
              exact hmem
          · intro x hx
            simp only [spec_key_candidates, List.mem_cons] at hx
            rcases hx with hx | hx
            · omega
            · have := hbound x hx
              omega
      case dict =>
        rcases hdet : detect_assignment_col es (2 * d + 2) with e | c'
        · simp [key_length, hdet] at hkl
        · simp [key_length, hdet] at hkl
          have h2 : 2 * d + 2 = 2 * (d + 1) := by ring
          rw [h2] at hdet
          have hlt : sizeOf es < n := by
            simp only [PyValue.dict.sizeOf_spec] at hsz
            omega
          obtain ⟨hmem, hbound⟩ := (ih (sizeOf es) hlt).1 es (d + 1) c' (le_refl _) hdet
          subst hkl
          have ha := Nat.le_max_left (2 * d + k.length) c'
          have hb := Nat.le_max_right (2 * d + k.length) c'
          constructor
          · simp only [spec_key_candidates, List.mem_cons]
            rcases max_choice (2 * d + k.length) c' with hm | hm
            · left
              omega
            · right
              rw [hm]
              exact hmem
          · intro x hx
            simp only [spec_key_candidates, List.mem_cons] at hx
            rcases hx with hx | hx
            · omega
            · have := hbound x hx
              omega
      all_goals
        simp [key_length] at hkl
        simp [spec_key_candidates]
        omega
    refine ⟨?_, ?_, kpart⟩
    · intro block d c hsz hd
      rcases block with _ | ⟨⟨k, v⟩, rest⟩
      · simp [detect_assignment_col] at hd
      · rcases hkl : key_length k v (2 * d) with e | l
        · simp [detect_assignment_col, hkl] at hd
        · simp only [detect_assignment_col, hkl] at hd
          have hszv : sizeOf v ≤ n := by
            simp only [List.cons.sizeOf_spec, Prod.mk.sizeOf_spec] at hsz
            omega
          have hszr : sizeOf rest < n := by
            simp only [List.cons.sizeOf_spec, Prod.mk.sizeOf_spec] at hsz
            omega
          obtain ⟨hKmem, hKb⟩ := kpart k v d l hszv hkl
          obtain ⟨hBor, hBle, hBb⟩ :=
            (ih (sizeOf rest) hszr).2.1 rest d l c (le_refl _) hd
          constructor
          · simp only [spec_candidates, List.mem_append]
            rcases hBor with hc | hc
            · left
              rw [hc]
              exact hKmem
            · right
              exact hc
          · intro x hx
            simp only [spec_candidates, List.mem_append] at hx
            rcases hx with hx | hx
            · have := hKb x hx
              omega
            · exact hBb x hx
    · intro block d acc c hsz hf
      rcases block with _ | ⟨⟨k, v⟩, rest⟩
      · simp [detect_max_fold] at hf
        simp [spec_candidates]
        omega
      · rcases hkl : key_length k v (2 * d) with e | l
        · simp [detect_max_fold, hkl] at hf
        · simp only [detect_max_fold, hkl] at hf
          have hszv : sizeOf v ≤ n := by
            simp only [List.cons.sizeOf_spec, Prod.mk.sizeOf_spec] at hsz
            omega
          have hszr : sizeOf rest < n := by
            simp only [List.cons.sizeOf_spec, Prod.mk.sizeOf_spec] at hsz
            omega
          obtain ⟨hKmem, hKb⟩ := kpart k v d l hszv hkl
          obtain ⟨hBor, hBle, hBb⟩ :=
            (ih (sizeOf rest) hszr).2.1 rest d (max acc l) c (le_refl _) hf
          have ha := Nat.le_max_left acc l
          have hb := Nat.le_max_right acc l
          refine ⟨?_, by omega, ?_⟩
          · simp only [spec_candidates, List.mem_append]
            rcases hBor with hc | hc
            · rcases max_choice acc l with hm | hm
              · left
                omega
              · right
                left
                rw [hc, hm]
                exact hKmem
            · right
              right
              exact hc
          · intro x hx
            simp only [spec_candidates, List.mem_append] at hx
            rcases hx with hx | hx
            · have := hKb x hx
              omega
            · exact hBb x hx

/-- Whenever the PDS3 pre-pass computes a column for a tree, it is exactly the
maximum of the spec's candidate lengths over every key in the whole tree. -/
theorem detect_assignment_col_spec (block : PyModule) (c : Nat)
    (h : detect_assignment_col block 0 = .ok c) :
    c ∈ spec_candidates block 0 ∧ ∀ x ∈ spec_candidates block 0, x ≤ c :=
  (detect_spec_aux (sizeOf block)).1 block 0 c (le_refl _) h

/-- Claim C2: under PDS3 the alignment column is computed by the pre-pass,
before any output, as the maximum over every key in the whole tree of
(nesting depth × indent-unit-width) + len(key), recursing into nested
Mappings/Groups with depth + 1; every assignment line then left-justifies its
indented key to that single global column; and for the input
A = 1, LONGKEY = 2 both assignment tokens start right after column
len("LONGKEY") = 7, i.e. at column 8. -/
theorem claim_c2_alignment_column (nq : String → Bool) (qs : String → String)
    (block : PyModule) (c : Nat)
    (h : detect_assignment_col block 0 = .ok c) :
    (c ∈ spec_candidates block 0 ∧ ∀ x ∈ spec_candidates block 0, x ≤ c) ∧
    (∀ key value level,
      encode_raw_assignment (PDSLabelEncoder.cfg c) key value level =
        ljust (indent (PDSLabelEncoder.cfg c) level ++ key) c ++
          " = " ++ value ++ "\n") ∧
    PDSLabelEncoder.encode nq qs ⟨Option.none⟩
        [("A", .int 1), ("LONGKEY", .int 2)] =
      (⟨some 7⟩, ("A       = 1\nLONGKEY = 2\nEND", Option.none)) ∧
    "LONGKEY".length = 7 := by
  refine ⟨detect_assignment_col_spec block c h, ?_, ?_, rfl⟩
  · intro key value level
    simp [encode_raw_assignment, PDSLabelEncoder.cfg, PVLEncoder.cfg]
  · simp [PDSLabelEncoder.encode, detect_assignment_col, detect_max_fold,
          key_length, PVLEncoder.encode, encode_block, encode_statement,
          encode_assignment, encode_value, encode_simple_value, is_string,
          is_int_float, encode_number, py_str_number, encode_raw_assignment,
          ljust, indent, PDSLabelEncoder.cfg, PVLEncoder.cfg]
    exact ⟨rfl, rfl⟩

/-- Witness for claim C2 at the two-key example of the spec. -/
theorem claim_c2_witness :
    (7 ∈ spec_candidates [("A", PyValue.int 1), ("LONGKEY", PyValue.int 2)] 0 ∧
      ∀ x ∈ spec_candidates [("A", PyValue.int 1), ("LONGKEY", PyValue.int 2)] 0,
        x ≤ 7) ∧
    (∀ key value level,
      encode_raw_assignment (PDSLabelEncoder.cfg 7) key value level =
        ljust (indent (PDSLabelEncoder.cfg 7) level ++ key) 7 ++
          " = " ++ value ++ "\n") ∧
    PDSLabelEncoder.encode (fun _ => false) id ⟨Option.none⟩
        [("A", PyValue.int 1), ("LONGKEY", PyValue.int 2)] =
      (⟨some 7⟩, ("A       = 1\nLONGKEY = 2\nEND", Option.none)) ∧
    "LONGKEY".length = 7 := by
  exact claim_c2_alignment_column (fun _ => false) id
    [("A", PyValue.int 1), ("LONGKEY", PyValue.int 2)] 7 (by
      simp [detect_assignment_col, detect_max_fold, key_length]
      rfl)
